import Mathlib

/-!
Verification of the `generate_commands` command-method generator
(`src/standard_tooling/bin/generate_commands.py`).

The Python module is embedded shallowly:

* JSON values produced by `json.loads` become the inductive `JVal`;
  Python `dict` values become association lists (JSON objects cannot
  contain duplicate keys, so first-match lookup is faithful).
* Pure functions (`classify_command`, the five emitters, `generate`)
  become Lean functions of the same name.
* Functions that can raise (`load_commands` on a non-dict document,
  `_java_method` on an empty verb, `update_file` / `_check_target` on a
  file without markers) return `Option`; `none` models the raised
  exception (`AttributeError`, `IndexError`, `ValueError`, `KeyError`).
* File contents are `List Char`; `update_file` returns the resulting
  file content together with the `changed` flag instead of writing.
-/

namespace GenerateCommands

/-- JSON values as returned by Python's `json.loads`.  Numbers are
modelled as integers: no command-table field in the repository uses a
fractional number, and no claim depends on float formatting. -/
inductive JVal where
  | null : JVal
  | bool (b : Bool) : JVal
  | num (n : Int) : JVal
  | str (s : String) : JVal
  | arr (xs : List JVal) : JVal
  | obj (fields : List (String × JVal)) : JVal

/-- Python `dict.get(key)` (returning `None` when absent) on a JSON
object, modelled as first-match lookup in the association list. -/
def pyGet : List (String × JVal) → String → Option JVal
  | [], _ => none
  | (k, v) :: rest, key => if k = key then some v else pyGet rest key

/-- Python `dict.get(key, default)`. -/
def pyGetD (fields : List (String × JVal)) (key : String) (dflt : JVal) : JVal :=
  (pyGet fields key).getD dflt

/-- Python truthiness of a JSON-decoded value (`None`, `False`, `0`,
`""`, `[]`, `{}` are falsy). -/
def truthy : JVal → Bool
  | .null => false
  | .bool b => b
  | .num n => n != 0
  | .str s => s != ""
  | .arr xs => !xs.isEmpty
  | .obj fields => !fields.isEmpty

/-- Python truthiness of an `Optional[str]` (`None` and `""` are falsy). -/
def optStrTruthy : Option String → Bool
  | none => false
  | some s => s != ""

mutual
/-- Python `repr` of a JSON-decoded value.  For strings the
quote-selection/escaping rules of `repr` are simplified to plain single
quotes: no command-table value and no claim exercises exotic strings
inside containers. -/
def pyRepr : JVal → String
  | .null => "None"
  | .bool true => "True"
  | .bool false => "False"
  | .num n => toString n
  | .str s => "\x27" ++ s ++ "\x27"
  | .arr xs => "[" ++ pyReprList xs ++ "]"
  | .obj fields => "\x7b" ++ pyReprFields fields ++ "\x7d"

def pyReprList : List JVal → String
  | [] => ""
  | [x] => pyRepr x
  | x :: y :: rest => pyRepr x ++ ", " ++ pyReprList (y :: rest)

def pyReprFields : List (String × JVal) → String
  | [] => ""
  | [(k, v)] => "\x27" ++ k ++ "\x27: " ++ pyRepr v
  | (k, v) :: f :: rest => "\x27" ++ k ++ "\x27: " ++ pyRepr v ++ ", " ++ pyReprFields (f :: rest)
end

/-- Python `str` of a JSON-decoded value (`str(x)` equals `repr(x)` for
every JSON-decoded type except `str` itself). -/
def pyStr : JVal → String
  | .str s => s
  | v => pyRepr v

/-- Python `str.lower()` (all identifiers involved are ASCII, where
`Char.toLower` agrees with Python), written over the character list so
that it reduces by computation. -/
def pyLower (s : String) : String := String.mk (s.toList.map Char.toLower)

/-- Python `x == "singleton"` for a value `x` that may be absent or of
any JSON type (equality with a string is `False` for every non-string). -/
def isSingletonPattern : Option JVal → Bool
  | some (.str s) => s == "singleton"
  | _ => false

/-- `NO_NAME_QUALIFIERS`: commands whose MQSC qualifier matches one of
these target the queue manager itself (line 21 of the source). -/
def NO_NAME_QUALIFIERS : List String := ["QMGR", "CMDSERV", "QMSTATUS"]

/-- `CommandSpec` (lines 24-32): describes one MQSC command for code
generation.  `pattern` is one of `"singleton" | "list" | "required_name"
| "optional_name" | "no_name"`, kept as a string as in the source. -/
structure CommandSpec where
  verb : String
  mqsc_qualifier : String
  qualifier : String
  pattern : String
  name_default : Option String
deriving DecidableEq

/-- `classify_command` (lines 35-67): derive a `CommandSpec` from a
mapping-data.json command entry. -/
def classify_command (verb : String) (mqsc_qualifier : String)
    (entry : List (String × JVal)) : CommandSpec :=
  -- qualifier = entry.get("qualifier", mqsc_qualifier.lower());
  -- if not isinstance(qualifier, str): qualifier = mqsc_qualifier.lower()
  let qualifier : String :=
    match pyGet entry "qualifier" with
    | some (.str s) => s
    | some _ => pyLower mqsc_qualifier
    | none => pyLower mqsc_qualifier
  let explicit_pattern : Option JVal := pyGet entry "pattern"
  let name_required : Bool := truthy (pyGetD entry "name_required" (.bool false))
  let name_default : Option JVal := pyGet entry "name_default"
  let pattern : String :=
    if isSingletonPattern explicit_pattern then "singleton"
    else if verb = "DISPLAY" ∧ mqsc_qualifier ∉ NO_NAME_QUALIFIERS then "list"
    else if name_required then "required_name"
    else if mqsc_qualifier ∈ NO_NAME_QUALIFIERS then "no_name"
    else "optional_name"
  { verb := verb
    mqsc_qualifier := mqsc_qualifier
    qualifier := qualifier
    pattern := pattern
    -- name_default=str(name_default) if name_default is not None else None
    -- (a JSON null decodes to Python None, hence also yields None here)
    name_default :=
      match name_default with
      | none => none
      | some .null => none
      | some v => some (pyStr v) }

/-- Python `key.split(" ", 1)` restricted to the shape test of
`load_commands`: `none` when the key contains no space (the split yields
a single part), otherwise the text before and after the first space. -/
def splitKey : List Char → Option (List Char × List Char)
  | [] => none
  | c :: rest =>
    if c = ' ' then some ([], rest)
    else (splitKey rest).map (fun p => (c :: p.1, p.2))

/-- The loop body of `load_commands` (lines 78-86) for one entry of the
commands mapping: `continue` (skip) becomes `none`. -/
def entrySpec (p : String × JVal) : Option CommandSpec :=
  match splitKey p.1.toList, p.2 with
  | some (verbChars, qualChars), .obj entry =>
    some (classify_command (String.mk verbChars) (String.mk qualChars) entry)
  | _, _ => none

/-- `load_commands` (lines 70-87), starting from the parsed JSON
document.  `none` models the `AttributeError` raised by
`data.get("commands", {})` when the top-level value is not a dict.
Iterating `sorted(commands_raw.keys())` and indexing the dict is
modelled as sorting the association pairs by key (a Python dict cannot
contain duplicate keys). -/
def load_commands (data : JVal) : Option (List CommandSpec) :=
  match data with
  | .obj fields =>
    let commands_raw : JVal := pyGetD fields "commands" (.obj [])
    match commands_raw with
    | .obj entries =>
      let sorted_entries :=
        List.insertionSort (fun a b : String × JVal => a.1 ≤ b.1) entries
      some (sorted_entries.filterMap entrySpec)
    | _ => some []
  | _ => none

/-- `MQSC_REF_URL` (line 94). -/
def MQSC_REF_URL : String :=
  "https://www.ibm.com/docs/en/ibm-mq/9.4?topic=reference-mqsc-commands"

/-- `PYTHON_DOCS_BASE_URL` (line 95). -/
def PYTHON_DOCS_BASE_URL : String :=
  "https://wphillipmoore.github.io/mq-rest-admin-python"

/-- `_python_docstring` (lines 98-140): build a Python docstring for a
command method.  The `mapping_pages` frozenset is modelled as a list;
`cmd.qualifier in mapping_pages` becomes `mapping_pages.contains`. -/
def _python_docstring (cmd : CommandSpec) (mapping_pages : List String) : String :=
  let command_label := cmd.verb ++ " " ++ cmd.mqsc_qualifier
  let lines : List String :=
    ["        \"\"\"Execute the MQSC ``" ++ command_label ++ "`` command.",
     "",
     "        See `MQSC reference <" ++ MQSC_REF_URL ++ ">`__",
     "        for command details."]
    ++ (if mapping_pages.contains cmd.qualifier then
          ["        See `" ++ cmd.qualifier ++ " attribute mappings" ++
           " <" ++ PYTHON_DOCS_BASE_URL ++ "/mappings/" ++ cmd.qualifier ++ ".html>`__."]
        else [])
    ++ [""]
    -- Args section
    ++ ["        Args:"]
    ++ (if cmd.pattern = "list" ∨ cmd.pattern = "optional_name" ∨ cmd.pattern = "required_name" then
          let name_desc :=
            if cmd.pattern = "list" then "Object name or generic pattern." else "Object name."
          ["            name: " ++ name_desc]
        else [])
    ++ ["            request_parameters: Request attributes as a dict. Mapped",
        "                from ``snake_case`` when mapping is enabled.",
        "            response_parameters: Response attributes to return.",
        "                Defaults to ``[\"all\"]``."]
    ++ (if cmd.pattern = "list" then
          ["            where: Filter expression (e.g. ``\"current_depth GT 100\"``).",
           "                The keyword is mapped from ``snake_case`` when mapping",
           "                is enabled."]
        else [])
    ++ [""]
    -- Returns/Raises section
    ++ (if cmd.pattern = "singleton" then
          ["        Returns:",
           "            Parameter dict, or ``None``."]
        else if cmd.pattern = "list" then
          ["        Returns:",
           "            List of parameter dicts, one per matching object. Empty",
           "            list if no objects match."]
        else
          ["        Raises:",
           "            MQRESTCommandError: If the command fails."])
    ++ ["",
        "        \"\"\""]
  String.intercalate "\n" lines

/-- `_python_method` (lines 143-198): generate one Python method. -/
def _python_method (cmd : CommandSpec) (mapping_pages : List String) : String :=
  let method_name := pyLower cmd.verb ++ "_" ++ pyLower cmd.mqsc_qualifier
  -- Signature
  let sig_lines : List String :=
    ["    def " ++ method_name ++ "(",
     "        self,"]
    ++ (if cmd.pattern = "required_name" then
          ["        name: str,"]
        else if cmd.pattern = "list" ∨ cmd.pattern = "optional_name" then
          ["        name: str | None = None,"]
        else [])
    ++ ["        request_parameters: Mapping[str, object] | None = None,",
        "        response_parameters: Sequence[str] | None = None,"]
    ++ (if cmd.pattern = "list" then
          ["        where: str | None = None,"]
        else [])
    ++ [if cmd.pattern = "singleton" then
          "    ) -> dict[str, object] | None:"
        else if cmd.pattern = "list" then
          "    ) -> list[dict[str, object]]:"
        else
          "    ) -> None:"]
  -- Docstring
  let docstring := _python_docstring cmd mapping_pages
  -- Body
  let body_lines : List String :=
    [if cmd.pattern = "list" then
       "        return self._mqsc_command("
     else if cmd.pattern = "singleton" then
       "        objects = self._mqsc_command("
     else
       "        self._mqsc_command("]
    ++ ["            command=\"" ++ cmd.verb ++ "\",",
        "            mqsc_qualifier=\"" ++ cmd.mqsc_qualifier ++ "\","]
    ++ [if cmd.pattern = "list" ∧ optStrTruthy cmd.name_default then
          "            name=name or \"" ++ cmd.name_default.getD "" ++ "\","
        else if cmd.pattern = "required_name" ∨ cmd.pattern = "optional_name" ∨ cmd.pattern = "list" then
          "            name=name,"
        else
          "            name=None,"]
    ++ ["            request_parameters=request_parameters,",
        "            response_parameters=response_parameters,"]
    ++ (if cmd.pattern = "list" then ["            where=where,"] else [])
    ++ ["        )"]
    ++ (if cmd.pattern = "singleton" then
          ["        if objects:",
           "            return objects[0]",
           "        return None"]
        else [])
  String.intercalate "\n" (sig_lines ++ [docstring] ++ body_lines)

/-- `generate_python` (lines 201-204): generate all Python methods. -/
def generate_python (specs : List CommandSpec) (mapping_pages : List String) : String :=
  String.intercalate "\n\n" (specs.map (fun cmd => _python_method cmd mapping_pages))

/-- `_ruby_method` (lines 212-305): generate one Ruby method.
(`\x27` is a single quote, `\x7b`/`\x7d` are literal braces.) -/
def _ruby_method (cmd : CommandSpec) : String :=
  let method_name := pyLower cmd.verb ++ "_" ++ pyLower cmd.mqsc_qualifier
  let command_label := cmd.verb ++ " " ++ cmd.mqsc_qualifier
  -- YARD doc
  let lines : List String :=
    ["        # Execute the MQSC +" ++ command_label ++ "+ command.",
     "        #"]
    ++ (if cmd.pattern = "required_name" then
          ["        # @param name [String] the object name"]
        else if cmd.pattern = "list" ∨ cmd.pattern = "optional_name" then
          (if cmd.pattern = "list" ∧ optStrTruthy cmd.name_default then
             ["        # @param name [String, nil] object name or pattern," ++
              " defaults to +\"" ++ cmd.name_default.getD "" ++ "\"+"]
           else
             ["        # @param name [String, nil] object name"])
        else [])
    ++ ["        # @param request_parameters [Hash\x7bString => Object\x7d, nil] request attributes",
        "        # @param response_parameters [Array<String>, nil] response attributes to return"]
    ++ (if cmd.pattern = "list" then
          ["        # @param where [String, nil] filter expression"]
        else [])
    ++ (if cmd.pattern = "singleton" then
          ["        # @return [Hash\x7bString => Object\x7d, nil] parameter hash, or nil if empty"]
        else if cmd.pattern = "list" then
          ["        # @return [Array<Hash\x7bString => Object\x7d>] parameter hashes"]
        else
          ["        # @return [nil]"])
    ++ ["        # @raise [CommandError] if the MQSC command fails",
        "        # @raise [MappingError] if attribute mapping fails in strict mode"]
    -- Signature
    ++ [if cmd.pattern = "required_name" then
          "        def " ++ method_name ++ "(name, request_parameters: nil, response_parameters: nil)"
        else if cmd.pattern = "no_name" ∨ cmd.pattern = "singleton" then
          "        def " ++ method_name ++ "(request_parameters: nil, response_parameters: nil)"
        else if cmd.pattern = "list" then
          "        def " ++ method_name ++ "(name: nil, request_parameters: nil," ++
          " response_parameters: nil, where: nil)"
        else  -- optional_name
          "        def " ++ method_name ++ "(name: nil, request_parameters: nil," ++
          " response_parameters: nil)"]
  -- Body
  let name_expr : String :=
    if cmd.pattern = "list" ∧ optStrTruthy cmd.name_default then
      "name || \x27" ++ cmd.name_default.getD "" ++ "\x27"
    else if cmd.pattern = "required_name" ∨ cmd.pattern = "optional_name" ∨ cmd.pattern = "list" then
      "name"
    else
      "nil"
  let body : List String :=
    if cmd.pattern = "list" then
      ["          mqsc_command(",
       "            command: \x27" ++ cmd.verb ++ "\x27, mqsc_qualifier: \x27" ++ cmd.mqsc_qualifier ++ "\x27,",
       "            name: " ++ name_expr ++ ", request_parameters: request_parameters,",
       "            response_parameters: response_parameters, where: where",
       "          )"]
    else if cmd.pattern = "singleton" then
      ["          objects = mqsc_command(",
       "            command: \x27" ++ cmd.verb ++ "\x27, mqsc_qualifier: \x27" ++ cmd.mqsc_qualifier ++ "\x27,",
       "            name: " ++ name_expr ++ ", request_parameters: request_parameters,",
       "            response_parameters: response_parameters",
       "          )",
       "          objects.empty? ? nil : objects[0]"]
    else
      ["          mqsc_command(",
       "            command: \x27" ++ cmd.verb ++ "\x27, mqsc_qualifier: \x27" ++ cmd.mqsc_qualifier ++ "\x27,",
       "            name: " ++ name_expr ++ ", request_parameters: request_parameters,",
       "            response_parameters: response_parameters",
       "          )",
       "          nil"]
  String.intercalate "\n" (lines ++ body ++ ["        end"])

/-- `generate_ruby` (lines 308-311): generate all Ruby methods. -/
def generate_ruby (specs : List CommandSpec) : String :=
  String.intercalate "\n\n" (specs.map _ruby_method)

/-- Python `str.capitalize`: first character upper-cased, the rest
lower-cased (identical to title-casing for the ASCII identifiers used
here). -/
def pyCapitalize (s : String) : String :=
  match s.toList with
  | [] => ""
  | c :: rest => String.mk (c.toUpper :: rest.map Char.toLower)

/-- `_java_method_name` (lines 319-322): convert verb_qualifier to
camelCase.  `parts` is never empty (`splitOn` returns at least one
part), so the `parts[0]` access is modelled with `headD`. -/
def _java_method_name (cmd : CommandSpec) : String :=
  let parts := (pyLower cmd.verb ++ "_" ++ pyLower cmd.mqsc_qualifier).splitOn "_"
  parts.headD "" ++ String.join ((parts.drop 1).map pyCapitalize)

/-- `_java_method` (lines 325-394): generate one Java method.
`cmd.verb[0]` raises `IndexError` when the verb is empty; that case is
modelled as `none`. -/
def _java_method (cmd : CommandSpec) : Option String :=
  match cmd.verb.toList with
  | [] => none  -- cmd.verb[0] raises IndexError
  | v0 :: _ =>
    let method_name := _java_method_name cmd
    let command_label := cmd.verb ++ " " ++ cmd.mqsc_qualifier
    let article := if ("AEIOU".toList).contains v0 then "an" else "a"
    let lines : List String :=
      ["  /** Executes " ++ article ++ " " ++ command_label ++ " MQSC command. */"]
      ++ (if cmd.pattern = "singleton" then
            ["  public @Nullable Map<String, Object> " ++ method_name ++ "(",
             "      @Nullable Map<String, Object> requestParameters," ++
             " @Nullable List<String> responseParameters) \x7b",
             "    List<Map<String, Object>> objects =",
             "        mqscCommand(\"" ++ cmd.verb ++ "\", \"" ++ cmd.mqsc_qualifier ++ "\"," ++
             " null, requestParameters, responseParameters, null);",
             "    return objects.isEmpty() ? null : objects.get(0);"]
          else if cmd.pattern = "list" then
            ["  public List<Map<String, Object>> " ++ method_name ++ "(",
             "      @Nullable String name,",
             "      @Nullable Map<String, Object> requestParameters,",
             "      @Nullable List<String> responseParameters,",
             "      @Nullable String where) \x7b"]
            ++ (if optStrTruthy cmd.name_default then
                  ["    return mqscCommand(\"" ++ cmd.verb ++ "\", \"" ++ cmd.mqsc_qualifier ++ "\"," ++
                   " name != null ? name : \"" ++ cmd.name_default.getD "" ++ "\"," ++
                   " requestParameters, responseParameters, where);"]
                else
                  ["    return mqscCommand(\"" ++ cmd.verb ++ "\", \"" ++ cmd.mqsc_qualifier ++ "\"," ++
                   " name, requestParameters, responseParameters, where);"])
          else if cmd.pattern = "required_name" then
            ["  public void " ++ method_name ++ "(",
             "      @Nullable String name,",
             "      @Nullable Map<String, Object> requestParameters,",
             "      @Nullable List<String> responseParameters) \x7b",
             "    Objects.requireNonNull(name, \"name\");",
             "    mqscCommand(\"" ++ cmd.verb ++ "\", \"" ++ cmd.mqsc_qualifier ++ "\"," ++
             " name, requestParameters, responseParameters, null);"]
          else if cmd.pattern = "no_name" then
            ["  public void " ++ method_name ++ "(",
             "      @Nullable Map<String, Object> requestParameters," ++
             " @Nullable List<String> responseParameters) \x7b",
             "    mqscCommand(\"" ++ cmd.verb ++ "\", \"" ++ cmd.mqsc_qualifier ++ "\"," ++
             " null, requestParameters, responseParameters, null);"]
          else  -- optional_name
            ["  public void " ++ method_name ++ "(",
             "      @Nullable String name,",
             "      @Nullable Map<String, Object> requestParameters,",
             "      @Nullable List<String> responseParameters) \x7b",
             "    mqscCommand(\"" ++ cmd.verb ++ "\", \"" ++ cmd.mqsc_qualifier ++ "\"," ++
             " name, requestParameters, responseParameters, null);"])
      ++ ["  \x7d"]
    some (String.intercalate "\n" lines)

/-- Left-to-right mapping over a list where the function may raise
(`none`), aborting at the first failure: the semantics of a Python list
comprehension whose body may raise. -/
def mapOption {α β : Type} (f : α → Option β) : List α → Option (List β)
  | [] => some []
  | a :: t =>
    match f a with
    | none => none
    | some b => (mapOption f t).map (fun bs => b :: bs)

/-- `generate_java` (lines 397-400): generate all Java methods; `none`
when any single method raises. -/
def generate_java (specs : List CommandSpec) : Option String :=
  (mapOption _java_method specs).map (String.intercalate "\n\n")

/-- `_go_method_name` (lines 408-411): convert verb_qualifier to
PascalCase. -/
def _go_method_name (cmd : CommandSpec) : String :=
  let parts := (pyLower cmd.verb ++ "_" ++ pyLower cmd.mqsc_qualifier).splitOn "_"
  String.join (parts.map pyCapitalize)

/-- `_go_method` (lines 414-503): generate one Go method.  The source
strings contain literal tab characters. -/
def _go_method (cmd : CommandSpec) : String :=
  let method_name := _go_method_name cmd
  let command_label := cmd.verb ++ " " ++ cmd.mqsc_qualifier
  let lines : List String :=
    if cmd.pattern = "singleton" then
      ["// " ++ method_name ++ " executes the " ++ command_label ++ " command.",
       "func (session *Session) " ++ method_name ++ "(ctx context.Context," ++
       " opts ...CommandOption) (map[string]any, error) \x7b",
       "\tconfig := buildCommandConfig(opts)",
       "\tobjects, err := session.mqscCommand(ctx, \"" ++ cmd.verb ++ "\"," ++
       " \"" ++ cmd.mqsc_qualifier ++ "\", nil," ++
       " config.requestParameters, config.responseParameters, nil, true)",
       "\tif err != nil \x7b",
       "\t\treturn nil, err",
       "\t\x7d",
       "\tif len(objects) == 0 \x7b",
       "\t\treturn nil, nil",
       "\t\x7d",
       "\treturn objects[0], nil",
       "\x7d"]
    else if cmd.pattern = "list" ∧ optStrTruthy cmd.name_default then
      ["// " ++ method_name ++ " executes the " ++ command_label ++ " command." ++
       " Name defaults to \"" ++ cmd.name_default.getD "" ++ "\" if empty.",
       "func (session *Session) " ++ method_name ++ "(ctx context.Context," ++
       " name string, opts ...CommandOption) ([]map[string]any, error) \x7b",
       "\tconfig := buildCommandConfig(opts)",
       "\tdisplayName := name",
       "\tif displayName == \"\" \x7b",
       "\t\tdisplayName = \"" ++ cmd.name_default.getD "" ++ "\"",
       "\t\x7d",
       "\treturn session.mqscCommand(ctx, \"" ++ cmd.verb ++ "\"," ++
       " \"" ++ cmd.mqsc_qualifier ++ "\", &displayName," ++
       " config.requestParameters, config.responseParameters," ++
       " config.where, true)",
       "\x7d"]
    else if cmd.pattern = "list" then
      ["// " ++ method_name ++ " executes the " ++ command_label ++ " command.",
       "func (session *Session) " ++ method_name ++ "(ctx context.Context," ++
       " name string, opts ...CommandOption) ([]map[string]any, error) \x7b",
       "\treturn session.displayList(ctx, \"" ++ cmd.mqsc_qualifier ++ "\", name, opts)",
       "\x7d"]
    else if cmd.pattern = "required_name" then
      ["// " ++ method_name ++ " executes the " ++ command_label ++ " command. Name is required.",
       "func (session *Session) " ++ method_name ++ "(ctx context.Context," ++
       " name string, opts ...CommandOption) error \x7b",
       "\treturn session.voidCommand(ctx, \"" ++ cmd.verb ++ "\"," ++
       " \"" ++ cmd.mqsc_qualifier ++ "\", &name, opts)",
       "\x7d"]
    else if cmd.pattern = "no_name" then
      ["// " ++ method_name ++ " executes the " ++ command_label ++ " command.",
       "func (session *Session) " ++ method_name ++ "(ctx context.Context," ++
       " opts ...CommandOption) error \x7b",
       "\treturn session.voidCommand(ctx, \"" ++ cmd.verb ++ "\", \"" ++ cmd.mqsc_qualifier ++ "\", nil, opts)",
       "\x7d"]
    else  -- optional_name
      ["// " ++ method_name ++ " executes the " ++ command_label ++ " command.",
       "func (session *Session) " ++ method_name ++ "(ctx context.Context," ++
       " name string, opts ...CommandOption) error \x7b",
       "\treturn session.voidCommandOptionalName(ctx, \"" ++ cmd.verb ++ "\"," ++
       " \"" ++ cmd.mqsc_qualifier ++ "\", name, opts)",
       "\x7d"]
  String.intercalate "\n" lines

/-- `generate_go` (lines 506-509): generate all Go methods. -/
def generate_go (specs : List CommandSpec) : String :=
  String.intercalate "\n\n" (specs.map _go_method)

/-- `_rust_method` (lines 517-619): generate one Rust method. -/
def _rust_method (cmd : CommandSpec) : String :=
  let method_name := pyLower cmd.verb ++ "_" ++ pyLower cmd.mqsc_qualifier
  let command_label := cmd.verb ++ " " ++ cmd.mqsc_qualifier
  let lines : List String :=
    ["    /// Execute the MQSC `" ++ command_label ++ "` command."]
    ++ (if cmd.pattern = "singleton" then
          ["    pub fn " ++ method_name ++ "(",
           "        &mut self,",
           "        request_parameters: Option<&HashMap<String, Value>>,",
           "        response_parameters: Option<&[&str]>,",
           "    ) -> Result<Option<HashMap<String, Value>>> \x7b",
           "        let objects = self.mqsc_command(",
           "            \"" ++ cmd.verb ++ "\",",
           "            \"" ++ cmd.mqsc_qualifier ++ "\",",
           "            None,",
           "            request_parameters,",
           "            response_parameters,",
           "            None,",
           "        )?;",
           "        Ok(objects.into_iter().next())",
           "    \x7d"]
        else if cmd.pattern = "list" then
          ["    pub fn " ++ method_name ++ "(",
           "        &mut self,",
           "        name: Option<&str>,",
           "        request_parameters: Option<&HashMap<String, Value>>,",
           "        response_parameters: Option<&[&str]>,",
           "        where_clause: Option<&str>,",
           "    ) -> Result<Vec<HashMap<String, Value>>> \x7b"]
          ++ (if optStrTruthy cmd.name_default then
                ["        self.mqsc_command(",
                 "            \"" ++ cmd.verb ++ "\",",
                 "            \"" ++ cmd.mqsc_qualifier ++ "\",",
                 "            Some(name.unwrap_or(\"" ++ cmd.name_default.getD "" ++ "\")),",
                 "            request_parameters,",
                 "            response_parameters,",
                 "            where_clause,",
                 "        )"]
              else
                ["        self.mqsc_command(",
                 "            \"" ++ cmd.verb ++ "\",",
                 "            \"" ++ cmd.mqsc_qualifier ++ "\",",
                 "            name,",
                 "            request_parameters,",
                 "            response_parameters,",
                 "            where_clause,",
                 "        )"])
          ++ ["    \x7d"]
        else if cmd.pattern = "required_name" then
          ["    pub fn " ++ method_name ++ "(",
           "        &mut self,",
           "        name: &str,",
           "        request_parameters: Option<&HashMap<String, Value>>,",
           "        response_parameters: Option<&[&str]>,",
           "    ) -> Result<()> \x7b",
           "        self.mqsc_command(",
           "            \"" ++ cmd.verb ++ "\",",
           "            \"" ++ cmd.mqsc_qualifier ++ "\",",
           "            Some(name),",
           "            request_parameters,",
           "            response_parameters,",
           "            None,",
           "        )?;",
           "        Ok(())",
           "    \x7d"]
        else if cmd.pattern = "no_name" then
          ["    pub fn " ++ method_name ++ "(",
           "        &mut self,",
           "        request_parameters: Option<&HashMap<String, Value>>,",
           "        response_parameters: Option<&[&str]>,",
           "    ) -> Result<()> \x7b",
           "        self.mqsc_command(",
           "            \"" ++ cmd.verb ++ "\",",
           "            \"" ++ cmd.mqsc_qualifier ++ "\",",
           "            None,",
           "            request_parameters,",
           "            response_parameters,",
           "            None,",
           "        )?;",
           "        Ok(())",
           "    \x7d"]
        else  -- optional_name
          ["    pub fn " ++ method_name ++ "(",
           "        &mut self,",
           "        name: Option<&str>,",
           "        request_parameters: Option<&HashMap<String, Value>>,",
           "        response_parameters: Option<&[&str]>,",
           "    ) -> Result<()> \x7b",
           "        self.mqsc_command(",
           "            \"" ++ cmd.verb ++ "\",",
           "            \"" ++ cmd.mqsc_qualifier ++ "\",",
           "            name,",
           "            request_parameters,",
           "            response_parameters,",
           "            None,",
           "        )?;",
           "        Ok(())",
           "    \x7d"])
  String.intercalate "\n" lines

/-- `generate_rust` (lines 622-625): generate all Rust methods. -/
def generate_rust (specs : List CommandSpec) : String :=
  String.intercalate "\n\n" (specs.map _rust_method)

/-- `LANGUAGES` (line 632). -/
def LANGUAGES : List String := ["python", "ruby", "java", "go", "rust"]

/-- Exceptions `generate` can propagate: `ValueError` for an
unsupported language (line 660-661), `IndexError` from `_java_method`
on an empty verb. -/
inductive GenErr where
  | valueError (msg : String) : GenErr
  | indexError : GenErr
deriving DecidableEq

/-- `generate` (lines 643-661): generate command methods for the given
language.  The `mapping_pages` default (`mapping_pages or frozenset()`)
is resolved by the caller in this model. -/
def generate (language : String) (specs : List CommandSpec)
    (mapping_pages : List String) : Except GenErr String :=
  if language = "python" then .ok (generate_python specs mapping_pages)
  else if language = "ruby" then .ok (generate_ruby specs)
  else if language = "java" then
    match generate_java specs with
    | some s => .ok s
    | none => .error .indexError
  else if language = "go" then .ok (generate_go specs)
  else if language = "rust" then .ok (generate_rust specs)
  else .error (.valueError ("Unsupported language: " ++ language))

/-- `MARKERS` (lines 668-674): the five language-specific marker pairs,
as character lists; `none` models the `KeyError` of `MARKERS[language]`
for any other key. -/
def MARKERS (language : String) : Option (List Char × List Char) :=
  if language = "python" then
    some (("    # BEGIN GENERATED MQSC METHODS").toList, ("    # END GENERATED MQSC METHODS").toList)
  else if language = "ruby" then
    some (("        # BEGIN GENERATED MQSC METHODS").toList, ("        # END GENERATED MQSC METHODS").toList)
  else if language = "java" then
    some (("  // BEGIN GENERATED MQSC METHODS").toList, ("  // END GENERATED MQSC METHODS").toList)
  else if language = "go" then
    some (("// BEGIN GENERATED MQSC METHODS").toList, ("// END GENERATED MQSC METHODS").toList)
  else if language = "rust" then
    some (("    // BEGIN GENERATED MQSC METHODS").toList, ("    // END GENERATED MQSC METHODS").toList)
  else none

/-- `pat.isPrefixOf text` written out explicitly for character lists. -/
def startsWith : List Char → List Char → Bool
  | [], _ => true
  | _ :: _, [] => false
  | p :: ps, c :: cs => p = c && startsWith ps cs

/-- Python `text.index(pat)`: index of the first occurrence of `pat` in
`text`, `none` when absent (`ValueError`). -/
def firstIdx (pat : List Char) : List Char → Option Nat
  | [] => if startsWith pat [] then some 0 else none
  | c :: rest =>
    if startsWith pat (c :: rest) then some 0
    else (firstIdx pat rest).map (· + 1)

/-- `update_file` (lines 677-698): replace content between markers.
The file system is made explicit: the input is the target file's
current content, the output is the content after the call together with
the returned `changed` flag (the write happens only when `changed`, so
the post-call content is `new_source` in both branches).  `none` models
an uncaught exception (`KeyError` on an unknown language, `ValueError`
from `.index` when a marker is absent), in which case the file is not
written. -/
def update_file (language : String) (generated source : List Char) :
    Option (List Char × Bool) :=
  match MARKERS language with
  | none => none
  | some (begin_marker, end_marker) =>
    match firstIdx begin_marker source with
    | none => none
    | some begin_idx =>
      match firstIdx end_marker source with
      | none => none
      | some end_idx =>
        let new_source :=
          source.take begin_idx ++ begin_marker ++ ['\n'] ++ generated ++
            ['\n', '\n'] ++ end_marker ++ source.drop (end_idx + end_marker.length)
        some (new_source, new_source != source)

/-- `_check_target` (lines 775-798): verify that the target file
matches the generated output.  Returns the process exit status (0 for
"up to date", 1 for "out of date"); `none` models an uncaught
exception.  The function never writes: its only output is the status. -/
def _check_target (language : String) (generated source : List Char) :
    Option Nat :=
  match MARKERS language with
  | none => none
  | some (begin_marker, end_marker) =>
    match firstIdx begin_marker source with
    | none => none
    | some begin_idx =>
      match firstIdx end_marker source with
      | none => none
      | some end_idx =>
        let expected :=
          source.take begin_idx ++ begin_marker ++ ['\n'] ++ generated ++
            ['\n', '\n'] ++ end_marker ++ source.drop (end_idx + end_marker.length)
        if source = expected then some 0 else some 1

/-! ### Concrete instances used by witnesses and counterexamples -/

/-- Whether one entry of the commands mapping survives the two skip
tests of the `load_commands` loop (key splits in two, metadata is a
dict). -/
def entryKept (p : String × JVal) : Bool :=
  (splitKey p.1.toList).isSome &&
    (match p.2 with
     | .obj _ => true
     | _ => false)

/-- The Go begin marker, as characters. -/
def goBegin : List Char := ("// BEGIN GENERATED MQSC METHODS").toList

/-- The Go end marker, as characters. -/
def goEnd : List Char := ("// END GENERATED MQSC METHODS").toList

/-- The Python begin marker, as characters. -/
def pyBegin : List Char := ("    # BEGIN GENERATED MQSC METHODS").toList

/-- The Python end marker, as characters. -/
def pyEnd : List Char := ("    # END GENERATED MQSC METHODS").toList

/-- A Go file whose end marker precedes its begin marker: both markers
are present, yet `update_file` is not idempotent on it. -/
def twistedGoFile : List Char :=
  ("// END GENERATED MQSC METHODS// BEGIN GENERATED MQSC METHODS").toList

/-- The `changed` flag reported by the second of two successive
`update_file "go"` calls with generated block `"x"`, starting from
`twistedGoFile`. -/
def twistedSecondChanged : Option Bool :=
  match update_file "go" ['x'] twistedGoFile with
  | some r => (update_file "go" ['x'] r.1).map Prod.snd
  | none => none

/-- A well-formed Go target file. -/
def goFile : List Char :=
  ("// BEGIN GENERATED MQSC METHODS\nold\n\n// END GENERATED MQSC METHODS").toList

/-- `goFile` after patching the generated block to `"x"`. -/
def goFilePatched : List Char :=
  ("// BEGIN GENERATED MQSC METHODS\nx\n\n// END GENERATED MQSC METHODS").toList

/-- A well-formed Python target file. -/
def pyFile : List Char :=
  ("    # BEGIN GENERATED MQSC METHODS\nold\n\n    # END GENERATED MQSC METHODS").toList

/-- `pyFile` after patching the generated block to `"g"`. -/
def pyFilePatched : List Char :=
  ("    # BEGIN GENERATED MQSC METHODS\ng\n\n    # END GENERATED MQSC METHODS").toList

/-- `pyFilePatched` with one character prepended before the begin
marker: it differs from `pyFilePatched`, yet `_check_target` still
reports "up to date" because the checker rebuilds the expected content
from the mutated file itself. -/
def pyFileMutated : List Char := 'z' :: pyFilePatched

/-- A commands document whose single key has three space-separated
tokens. -/
def threeTokenDoc : JVal := .obj [("commands", .obj [("A B C", .obj [])])]

/-- A commands document whose single key starts with a space, so the
parsed verb is empty. -/
def emptyVerbDoc : JVal := .obj [("commands", .obj [(" QUEUE", .obj [])])]

/-- A `CommandSpec` with an empty verb (producible by `load_commands`,
see `emptyVerbDoc`). -/
def emptyVerbSpec : CommandSpec :=
  { verb := "", mqsc_qualifier := "QUEUE", qualifier := "queue",
    pattern := "optional_name", name_default := none }

/-- An ordinary spec with a non-empty verb. -/
def alterQmgrSpec : CommandSpec :=
  { verb := "ALTER", mqsc_qualifier := "QMGR", qualifier := "qmgr",
    pattern := "no_name", name_default := none }

/-! ### Helper lemmas about `take`, `drop`, `startsWith` and `firstIdx` -/

theorem take_append_len {α : Type} :
    ∀ (P Q : List α) (n : Nat), (P ++ Q).take (P.length + n) = P ++ Q.take n := by
  intro P
  induction P with
  | nil => intro Q n; simp
  | cons p ps ih =>
    intro Q n
    have harith : ps.length + 1 + n = (ps.length + n) + 1 := by omega
    simp only [List.cons_append, List.length_cons, harith, List.take_succ_cons, ih]

theorem drop_append_len {α : Type} :
    ∀ (P Q : List α) (n : Nat), (P ++ Q).drop (P.length + n) = Q.drop n := by
  intro P
  induction P with
  | nil => intro Q n; simp
  | cons p ps ih =>
    intro Q n
    have harith : ps.length + 1 + n = (ps.length + n) + 1 := by omega
    simp only [List.cons_append, List.length_cons, harith, List.drop_succ_cons, ih]

theorem drop_take_comm {α : Type} :
    ∀ (m : Nat) (l : List α) (n : Nat), (l.take (m + n)).drop m = (l.drop m).take n := by
  intro m
  induction m with
  | zero => intro l n; simp
  | succ k ih =>
    intro l n
    cases l with
    | nil => simp
    | cons c cs =>
      have harith : k + 1 + n = (k + n) + 1 := by omega
      simp only [harith, List.take_succ_cons, List.drop_succ_cons, ih]

theorem take_add_of_le {α : Type} {l : List α} {m : Nat} (h : m ≤ l.length) (n : Nat) :
    l.take (m + n) = l.take m ++ (l.drop m).take n := by
  have hl : (l.take m).length = m := by
    simp only [List.length_take]; omega
  have key := take_append_len (l.take m) (l.drop m) n
  rw [hl, List.take_append_drop] at key
  exact key

theorem startsWith_iff : ∀ (p t : List Char), startsWith p t = true ↔ t.take p.length = p := by
  intro p
  induction p with
  | nil => intro t; simp [startsWith]
  | cons a as ih =>
    intro t
    cases t with
    | nil => simp [startsWith]
    | cons c cs =>
      show (a = c && startsWith as cs) = true ↔ (c :: cs).take (a :: as).length = a :: as
      simp only [List.length_cons, List.take_succ_cons, List.cons.injEq, Bool.and_eq_true,
        decide_eq_true_eq, ih]
      constructor
      · rintro ⟨h1, h2⟩; exact ⟨h1.symm, h2⟩
      · rintro ⟨h1, h2⟩; exact ⟨h1.symm, h2⟩

theorem startsWith_congr (p l l' : List Char) (h : l.take p.length = l'.take p.length) :
    startsWith p l = startsWith p l' := by
  cases hb : startsWith p l' with
  | true =>
    have := (startsWith_iff p l').mp hb
    exact (startsWith_iff p l).mpr (h.trans this)
  | false =>
    cases hb' : startsWith p l with
    | false => rfl
    | true =>
      have := (startsWith_iff p l).mp hb'
      have : startsWith p l' = true := (startsWith_iff p l').mpr (h.symm.trans this)
      rw [this] at hb; exact absurd hb (by simp)

theorem firstIdx_startsWith :
    ∀ (pat t : List Char) (i : Nat), firstIdx pat t = some i →
      startsWith pat (t.drop i) = true := by
  intro pat t
  induction t with
  | nil =>
    intro i h
    unfold firstIdx at h
    split at h
    · cases h; simpa using (by assumption : startsWith pat [] = true)
    · cases h
  | cons c cs ih =>
    intro i h
    unfold firstIdx at h
    split at h
    · cases h; simpa using (by assumption : startsWith pat (c :: cs) = true)
    · cases hf : firstIdx pat cs with
      | none => rw [hf] at h; simp at h
      | some j =>
        rw [hf] at h; simp only [Option.map_some'] at h
        cases h
        rw [List.drop_succ_cons]
        exact ih j hf

theorem firstIdx_min :
    ∀ (pat t : List Char) (i : Nat), firstIdx pat t = some i →
      ∀ j, j < i → startsWith pat (t.drop j) = false := by
  intro pat t
  induction t with
  | nil =>
    intro i h j hj
    unfold firstIdx at h
    split at h
    · cases h; omega
    · cases h
  | cons c cs ih =>
    intro i h j hj
    unfold firstIdx at h
    split at h
    · cases h; omega
    · cases hf : firstIdx pat cs with
      | none => rw [hf] at h; simp at h
      | some k =>
        rw [hf] at h; simp only [Option.map_some'] at h
        cases h
        cases j with
        | zero =>
          simp only [List.drop_zero]
          simp only [Bool.not_eq_true] at *
          assumption
        | succ j' =>
          rw [List.drop_succ_cons]
          exact ih k hf j' (by omega)

theorem firstIdx_intro :
    ∀ (pat t : List Char) (i : Nat),
      startsWith pat (t.drop i) = true →
      (∀ j, j < i → startsWith pat (t.drop j) = false) →
      firstIdx pat t = some i := by
  intro pat t
  induction t with
  | nil =>
    intro i h1 h2
    have h0 : startsWith pat [] = true := by simpa using h1
    have hi : i = 0 := by
      by_contra hi0
      have := h2 0 (by omega)
      simp only [List.drop_nil] at this
      rw [this] at h0; cases h0
    subst hi
    unfold firstIdx
    rw [if_pos h0]
  | cons c cs ih =>
    intro i h1 h2
    cases i with
    | zero =>
      unfold firstIdx
      rw [if_pos (by simpa using h1)]
    | succ n =>
      have hfalse : startsWith pat (c :: cs) = false := by simpa using h2 0 (by omega)
      unfold firstIdx
      rw [if_neg (by simp [hfalse])]
      have : firstIdx pat cs = some n := by
        apply ih n
        · simpa [List.drop_succ_cons] using h1
        · intro j hj
          simpa [List.drop_succ_cons] using h2 (j + 1) (by omega)
      rw [this]; rfl

theorem firstIdx_le_length :
    ∀ (pat t : List Char) (i : Nat), firstIdx pat t = some i → i ≤ t.length := by
  intro pat t
  induction t with
  | nil =>
    intro i h
    unfold firstIdx at h
    split at h
    · cases h; simp
    · cases h
  | cons c cs ih =>
    intro i h
    unfold firstIdx at h
    split at h
    · cases h; simp
    · cases hf : firstIdx pat cs with
      | none => rw [hf] at h; simp at h
      | some j =>
        rw [hf] at h; simp only [Option.map_some'] at h
        cases h
        have := ih j hf
        simp only [List.length_cons]; omega

theorem firstIdx_congr {pat t t' : List Char} {i : Nat}
    (h : firstIdx pat t = some i)
    (hag : t'.take (i + pat.length) = t.take (i + pat.length)) :
    firstIdx pat t' = some i := by
  have hsw := firstIdx_startsWith pat t i h
  have hmin := firstIdx_min pat t i h
  have window : ∀ j, j ≤ i → (t'.drop j).take pat.length = (t.drop j).take pat.length := by
    intro j hj
    rw [← drop_take_comm j t' pat.length, ← drop_take_comm j t pat.length]
    have h1 : t'.take (j + pat.length) = (t'.take (i + pat.length)).take (j + pat.length) := by
      rw [List.take_take]; congr 1; omega
    have h2 : t.take (j + pat.length) = (t.take (i + pat.length)).take (j + pat.length) := by
      rw [List.take_take]; congr 1; omega
    rw [h1, h2, hag]
  apply firstIdx_intro
  · rw [startsWith_congr pat (t'.drop i) (t.drop i) (window i le_rfl)]
    exact hsw
  · intro j hj
    rw [startsWith_congr pat (t'.drop j) (t.drop j) (window j (le_of_lt hj))]
    exact hmin j hj

/-- Core of the idempotence argument: when the begin marker first
occurs in `src` at `b`, and the end marker first occurs in the patched
prefix exactly where the patch writes it, then in the patched content
both markers are first found at their patched positions and re-running
the substitution reproduces the patched content verbatim. -/
theorem canonical_rebuild
    (B E G src suffix : List Char) (b : Nat)
    (hb : firstIdx B src = some b)
    (hE2 : firstIdx E (src.take b ++ B ++ ['\n'] ++ G ++ ['\n', '\n'] ++ E) =
      some (b + B.length + 1 + G.length + 2)) :
    firstIdx B (src.take b ++ B ++ ['\n'] ++ G ++ ['\n', '\n'] ++ E ++ suffix) = some b ∧
    firstIdx E (src.take b ++ B ++ ['\n'] ++ G ++ ['\n', '\n'] ++ E ++ suffix) =
      some (b + B.length + 1 + G.length + 2) ∧
    (src.take b ++ B ++ ['\n'] ++ G ++ ['\n', '\n'] ++ E ++ suffix).take b ++ B ++ ['\n'] ++ G ++
        ['\n', '\n'] ++ E ++
        (src.take b ++ B ++ ['\n'] ++ G ++ ['\n', '\n'] ++ E ++ suffix).drop
          (b + B.length + 1 + G.length + 2 + E.length) =
      src.take b ++ B ++ ['\n'] ++ G ++ ['\n', '\n'] ++ E ++ suffix := by
  have hble : b ≤ src.length := firstIdx_le_length B src b hb
  have hlenP : (src.take b).length = b := by
    simp only [List.length_take]; omega
  have hBocc : (src.drop b).take B.length = B :=
    (startsWith_iff B (src.drop b)).mp (firstIdx_startsWith B src b hb)
  have assoc1 : src.take b ++ B ++ ['\n'] ++ G ++ ['\n', '\n'] ++ E ++ suffix
      = src.take b ++ (B ++ (['\n'] ++ (G ++ (['\n', '\n'] ++ (E ++ suffix))))) := by
    simp [List.append_assoc]
  have hlen2 : (src.take b ++ B ++ ['\n'] ++ G ++ ['\n', '\n'] ++ E).length
      = b + B.length + 1 + G.length + 2 + E.length := by
    simp only [List.length_append, hlenP, List.length_cons, List.length_nil]
  -- the begin marker is still first found at `b`
  have takeB : (src.take b ++ B ++ ['\n'] ++ G ++ ['\n', '\n'] ++ E ++ suffix).take (b + B.length)
      = src.take (b + B.length) := by
    rw [assoc1]
    have step1 := take_append_len (src.take b)
      (B ++ (['\n'] ++ (G ++ (['\n', '\n'] ++ (E ++ suffix))))) B.length
    rw [hlenP] at step1
    rw [step1]
    have step2 := take_append_len B (['\n'] ++ (G ++ (['\n', '\n'] ++ (E ++ suffix)))) 0
    rw [Nat.add_zero] at step2
    rw [step2]
    simp only [List.take_zero, List.append_nil]
    rw [take_add_of_le hble B.length, hBocc]
  have firstB : firstIdx B (src.take b ++ B ++ ['\n'] ++ G ++ ['\n', '\n'] ++ E ++ suffix)
      = some b := firstIdx_congr hb takeB
  -- the end marker is still first found right after the generated block
  have takeE : (src.take b ++ B ++ ['\n'] ++ G ++ ['\n', '\n'] ++ E ++ suffix).take
        (b + B.length + 1 + G.length + 2 + E.length)
      = (src.take b ++ B ++ ['\n'] ++ G ++ ['\n', '\n'] ++ E).take
        (b + B.length + 1 + G.length + 2 + E.length) := by
    have step1 := take_append_len (src.take b ++ B ++ ['\n'] ++ G ++ ['\n', '\n'] ++ E) suffix 0
    rw [Nat.add_zero, hlen2] at step1
    rw [step1]
    simp only [List.take_zero, List.append_nil]
    rw [← hlen2, List.take_length]
  have firstE : firstIdx E (src.take b ++ B ++ ['\n'] ++ G ++ ['\n', '\n'] ++ E ++ suffix)
      = some (b + B.length + 1 + G.length + 2) := firstIdx_congr hE2 takeE
  -- re-running the substitution rebuilds the same content
  have takeb : (src.take b ++ B ++ ['\n'] ++ G ++ ['\n', '\n'] ++ E ++ suffix).take b
      = src.take b := by
    rw [assoc1]
    have step1 := take_append_len (src.take b)
      (B ++ (['\n'] ++ (G ++ (['\n', '\n'] ++ (E ++ suffix))))) 0
    rw [Nat.add_zero, hlenP] at step1
    rw [step1]
    simp only [List.take_zero, List.append_nil]
  have dropE : (src.take b ++ B ++ ['\n'] ++ G ++ ['\n', '\n'] ++ E ++ suffix).drop
        (b + B.length + 1 + G.length + 2 + E.length)
      = suffix := by
    have step1 := drop_append_len (src.take b ++ B ++ ['\n'] ++ G ++ ['\n', '\n'] ++ E) suffix 0
    rw [Nat.add_zero, hlen2] at step1
    rw [step1, List.drop_zero]
  refine ⟨firstB, firstE, ?_⟩
  rw [takeb, dropE]

/-- `_check_target` reaches its verdict by comparing the current
content with exactly the content `update_file` would produce: same
marker lookups, same substitution arithmetic. -/
theorem check_target_of_update (language : String) (generated source : List Char) :
    (∀ new changed, update_file language generated source = some (new, changed) →
      _check_target language generated source = some (if source = new then 0 else 1)) ∧
    (update_file language generated source = none →
      _check_target language generated source = none) := by
  constructor
  · intro new changed hr
    unfold update_file at hr
    split at hr
    · exact absurd hr (by simp)
    · rename_i bm em heq
      split at hr
      · exact absurd hr (by simp)
      · rename_i b hb
        split at hr
        · exact absurd hr (by simp)
        · rename_i e he
          simp only [Option.some.injEq, Prod.mk.injEq] at hr
          obtain ⟨hnew, hch⟩ := hr
          have hgoal : _check_target language generated source =
              (if source = source.take b ++ bm ++ ['\n'] ++ generated ++ ['\n', '\n'] ++ em ++
                  source.drop (e + em.length) then some 0 else some 1) := by
            simp only [_check_target, heq, hb, he]
          rw [hgoal, hnew]
          by_cases hx : source = new
          · rw [if_pos hx, if_pos hx]
          · rw [if_neg hx, if_neg hx]
  · intro hnone
    unfold update_file at hnone
    unfold _check_target
    split at hnone
    · rename_i heq
      simp [heq]
    · rename_i bm em heq
      split at hnone
      · rename_i hb
        simp [heq, hb]
      · rename_i b hb
        split at hnone
        · rename_i he
          simp [heq, hb, he]
        · exact absurd hnone (by simp)

/-- The length of a `filterMap` counts the elements on which the
function succeeds. -/
theorem length_filterMap_eq_countP {α β : Type} (f : α → Option β) :
    ∀ l : List α, (l.filterMap f).length = l.countP (fun a => (f a).isSome) := by
  intro l
  induction l with
  | nil => rfl
  | cons a t ih =>
    rw [List.filterMap_cons]
    cases hf : f a with
    | none => simp [List.countP_cons, hf, ih]
    | some b => simp [List.countP_cons, hf, ih]

/-- `entrySpec` succeeds exactly on the entries `entryKept` keeps. -/
theorem entrySpec_isSome (p : String × JVal) : (entrySpec p).isSome = entryKept p := by
  obtain ⟨k, v⟩ := p
  unfold entrySpec entryKept
  cases hs : splitKey k.toList with
  | none => cases v <;> simp [hs]
  | some pr =>
    obtain ⟨a, c⟩ := pr
    cases v <;> simp [hs]

theorem string_toList_nil {s : String} (h : s.toList = []) : s = "" := by
  obtain ⟨data⟩ := s
  simp only [String.toList] at h
  subst h
  rfl

/-- `_java_method` succeeds on every spec with a non-empty verb. -/
theorem java_method_some (c : CommandSpec) (h : c.verb ≠ "") :
    (_java_method c).isSome = true := by
  unfold _java_method
  cases hv : c.verb.toList with
  | nil => exact absurd (string_toList_nil hv) h
  | cons c0 rest => simp

/-- The Java emitters' mapping succeeds on spec lists whose verbs are
all non-empty, producing one method per spec. -/
theorem mapOption_java_of_nonempty :
    ∀ specs : List CommandSpec, (∀ c ∈ specs, c.verb ≠ "") →
      ∃ methods, mapOption _java_method specs = some methods ∧
        methods.length = specs.length := by
  intro specs
  induction specs with
  | nil => intro _; exact ⟨[], rfl, rfl⟩
  | cons c t ih =>
    intro h
    have hc : (_java_method c).isSome = true := java_method_some c (h c (by simp))
    obtain ⟨s, hs⟩ : ∃ s, _java_method c = some s := by
      cases hj : _java_method c with
      | none => rw [hj] at hc; cases hc
      | some s => exact ⟨s, rfl⟩
    obtain ⟨ms, hms, hlen⟩ := ih (fun x hx => h x (by simp [hx]))
    refine ⟨s :: ms, ?_, by simp [hlen]⟩
    unfold mapOption
    rw [hs, hms]
    rfl

/-! ### Claim theorems -/

/-- C1: `classify_command` resolves the pattern by the fixed priority
order: an explicit `"singleton"` pattern wins; otherwise a `DISPLAY`
verb with a qualifier outside the fixed singleton-only set yields
`"list"` regardless of `name_required` (rule 2 outranks rule 3);
otherwise a truthy `name_required` yields `"required_name"`; otherwise
membership in the fixed set yields `"no_name"`; otherwise
`"optional_name"`. -/
theorem classify_command_priority_order :
    ∀ (verb mqsc_qualifier : String) (entry : List (String × JVal)),
      (isSingletonPattern (pyGet entry "pattern") = true →
        (classify_command verb mqsc_qualifier entry).pattern = "singleton") ∧
      (isSingletonPattern (pyGet entry "pattern") = false →
        verb = "DISPLAY" → mqsc_qualifier ∉ NO_NAME_QUALIFIERS →
        (classify_command verb mqsc_qualifier entry).pattern = "list") ∧
      (isSingletonPattern (pyGet entry "pattern") = false →
        (verb = "DISPLAY" → mqsc_qualifier ∈ NO_NAME_QUALIFIERS) →
        truthy (pyGetD entry "name_required" (.bool false)) = true →
        (classify_command verb mqsc_qualifier entry).pattern = "required_name") ∧
      (isSingletonPattern (pyGet entry "pattern") = false →
        (verb = "DISPLAY" → mqsc_qualifier ∈ NO_NAME_QUALIFIERS) →
        truthy (pyGetD entry "name_required" (.bool false)) = false →
        mqsc_qualifier ∈ NO_NAME_QUALIFIERS →
        (classify_command verb mqsc_qualifier entry).pattern = "no_name") ∧
      (isSingletonPattern (pyGet entry "pattern") = false →
        verb ≠ "DISPLAY" →
        truthy (pyGetD entry "name_required" (.bool false)) = false →
        mqsc_qualifier ∉ NO_NAME_QUALIFIERS →
        (classify_command verb mqsc_qualifier entry).pattern = "optional_name") := by
  intro verb mqsc_qualifier entry
  refine ⟨?_, ?_, ?_, ?_, ?_⟩
  · intro h1
    simp [classify_command, h1]
  · intro h1 h2 h3
    simp [classify_command, h1, h2, h3]
  · intro h1 h2 h3
    have hcond : ¬(verb = "DISPLAY" ∧ mqsc_qualifier ∉ NO_NAME_QUALIFIERS) :=
      fun hc => hc.2 (h2 hc.1)
    simp [classify_command, h1, hcond, h3]
  · intro h1 h2 h3 h4
    have hcond : ¬(verb = "DISPLAY" ∧ mqsc_qualifier ∉ NO_NAME_QUALIFIERS) :=
      fun hc => hc.2 (h2 hc.1)
    simp [classify_command, h1, hcond, h3, h4]
  · intro h1 h2 h3 h4
    simp [classify_command, h1, h2, h3, h4]

/-- Witness for C1: a `DISPLAY` command on a non-singleton qualifier
with `name_required` set still classifies as `"list"`. -/
theorem classify_command_priority_order_witness :
    (classify_command "DISPLAY" "QUEUE" [("name_required", JVal.bool true)]).pattern = "list" :=
  (classify_command_priority_order "DISPLAY" "QUEUE" [("name_required", JVal.bool true)]).2.1
    (by decide) rfl (by decide)

/-- C8: the display qualifier equals the metadata's `qualifier` field
when present and textual, and the lower-cased qualifier token otherwise
(absent or non-string); in particular
`classify_command "ALTER" "AUTHINFO" {}` yields `"authinfo"`. -/
theorem classify_command_qualifier_fallback :
    ∀ (verb mqsc_qualifier : String) (entry : List (String × JVal)),
      (∀ s, pyGet entry "qualifier" = some (.str s) →
        (classify_command verb mqsc_qualifier entry).qualifier = s) ∧
      (pyGet entry "qualifier" = none →
        (classify_command verb mqsc_qualifier entry).qualifier = pyLower mqsc_qualifier) ∧
      (∀ v, pyGet entry "qualifier" = some v → (∀ s, v ≠ .str s) →
        (classify_command verb mqsc_qualifier entry).qualifier = pyLower mqsc_qualifier) ∧
      (classify_command "ALTER" "AUTHINFO" []).qualifier = "authinfo" := by
  intro verb mqsc_qualifier entry
  refine ⟨?_, ?_, ?_, by decide⟩
  · intro s h
    simp [classify_command, h]
  · intro h
    simp [classify_command, h]
  · intro v h hne
    cases v with
    | str s => exact absurd rfl (hne s)
    | null => simp [classify_command, h]
    | bool b => simp [classify_command, h]
    | num n => simp [classify_command, h]
    | arr xs => simp [classify_command, h]
    | obj fields => simp [classify_command, h]

/-- Witness for C8: an explicit textual qualifier is used verbatim; an
explicit numeric qualifier falls back to the lower-cased token. -/
theorem classify_command_qualifier_fallback_witness :
    (classify_command "ALTER" "AUTHINFO" [("qualifier", JVal.str "custom")]).qualifier
        = "custom" ∧
    (classify_command "ALTER" "AUTHINFO" [("qualifier", JVal.num 3)]).qualifier
        = "authinfo" :=
  ⟨(classify_command_qualifier_fallback "ALTER" "AUTHINFO"
      [("qualifier", JVal.str "custom")]).1 "custom" rfl,
   (classify_command_qualifier_fallback "ALTER" "AUTHINFO"
      [("qualifier", JVal.num 3)]).2.2.1 (JVal.num 3) rfl
      (fun _ h => JVal.noConfusion h)⟩

/-- C2 (amended): two successive `update_file` calls with the same
language and generated block leave the content fixed and report
`changed = false` the second time, provided the marker pair in the
patched content is unambiguous: the begin marker first occurs in the
file at its original position, and the end marker's first occurrence in
the patched prefix (pre-begin text, begin marker, newline, generated
block, two newlines, end marker) is the freshly written one.  Without
that proviso the claim is false, see
`update_file_not_idempotent_cex`. -/
theorem update_file_idempotent
    (language : String) (B E generated source : List Char) (b e : Nat)
    (hm : MARKERS language = some (B, E))
    (hb : firstIdx B source = some b)
    (he : firstIdx E source = some e)
    (hcanon : firstIdx E (source.take b ++ B ++ ['\n'] ++ generated ++ ['\n', '\n'] ++ E) =
      some (b + B.length + 1 + generated.length + 2)) :
    update_file language generated source =
      some (source.take b ++ B ++ ['\n'] ++ generated ++ ['\n', '\n'] ++ E ++
              source.drop (e + E.length),
            (source.take b ++ B ++ ['\n'] ++ generated ++ ['\n', '\n'] ++ E ++
              source.drop (e + E.length)) != source) ∧
    update_file language generated
        (source.take b ++ B ++ ['\n'] ++ generated ++ ['\n', '\n'] ++ E ++
          source.drop (e + E.length)) =
      some (source.take b ++ B ++ ['\n'] ++ generated ++ ['\n', '\n'] ++ E ++
              source.drop (e + E.length), false) := by
  obtain ⟨hB', hE', hrebuild⟩ :=
    canonical_rebuild B E generated source (source.drop (e + E.length)) b hb hcanon
  constructor
  · simp only [update_file, hm, hb, he]
  · simp only [update_file, hm, hB', hE']
    rw [hrebuild]
    simp

/-- Witness for C2: patching a well-formed Go file once changes it;
patching it again is the identity and reports `changed = false`. -/
theorem update_file_idempotent_witness :
    update_file "go" ['x'] goFile = some (goFilePatched, true) ∧
    update_file "go" ['x'] goFilePatched = some (goFilePatched, false) := by
  have h := update_file_idempotent "go" goBegin goEnd ['x'] goFile 0 37 rfl
    (by decide) (by decide) (by decide)
  obtain ⟨h1, h2⟩ := h
  have hX : goFile.take 0 ++ goBegin ++ ['\n'] ++ ['x'] ++ ['\n', '\n'] ++ goEnd ++
      goFile.drop (37 + goEnd.length) = goFilePatched := by decide
  rw [hX] at h1 h2
  exact ⟨h1.trans (by decide), h2⟩

/-- Counterexample for C2 as stated: `twistedGoFile` contains both Go
markers (end marker first), yet the second of two successive
`update_file` calls still reports `changed = true` (the content keeps
growing). -/
theorem update_file_not_idempotent_cex :
    (firstIdx goBegin twistedGoFile).isSome = true ∧
    (firstIdx goEnd twistedGoFile).isSome = true ∧
    twistedSecondChanged = some true := by decide

/-- C7: `update_file` locates the first occurrence of each marker and
builds (text before begin marker) ++ begin marker ++ newline ++
generated ++ two newlines ++ end marker ++ (text after end marker);
when either marker is absent the `.index` lookup raises (`none`), so no
write ever happens and the file is left unchanged. -/
theorem update_file_marker_contract :
    ∀ (language : String) (B E generated source : List Char),
      MARKERS language = some (B, E) →
      ((∀ b e, firstIdx B source = some b → firstIdx E source = some e →
        update_file language generated source =
          some (source.take b ++ B ++ ['\n'] ++ generated ++ ['\n', '\n'] ++ E ++
                  source.drop (e + E.length),
                (source.take b ++ B ++ ['\n'] ++ generated ++ ['\n', '\n'] ++ E ++
                  source.drop (e + E.length)) != source)) ∧
      (firstIdx B source = none ∨ firstIdx E source = none →
        update_file language generated source = none)) := by
  intro language B E generated source hm
  constructor
  · intro b e hb he
    simp only [update_file, hm, hb, he]
  · intro h
    rcases h with h | h
    · simp only [update_file, hm, h]
    · cases hb : firstIdx B source with
      | none => simp only [update_file, hm, hb]
      | some b => simp only [update_file, hm, hb, h]

/-- Witness for C7: the substitution on a well-formed Go file, and the
fatal lookup on a file with no markers. -/
theorem update_file_marker_contract_witness :
    update_file "go" ['x'] goFile = some (goFilePatched, true) ∧
    update_file "go" ['x'] [] = none := by
  have h := update_file_marker_contract "go" goBegin goEnd ['x'] goFile rfl
  have h1 := h.1 0 37 (by decide) (by decide)
  have hX : goFile.take 0 ++ goBegin ++ ['\n'] ++ ['x'] ++ ['\n', '\n'] ++ goEnd ++
      goFile.drop (37 + goEnd.length) = goFilePatched := by decide
  rw [hX] at h1
  refine ⟨h1.trans (by decide), ?_⟩
  exact (update_file_marker_contract "go" goBegin goEnd ['x'] [] rfl).2 (Or.inl (by decide))

/-- C3 (amended): `_check_target` rebuilds, from the current file
content, exactly the content `update_file` would produce for that same
content and compares; it reports 0 when the current content is a fixed
point of the substitution and 1 otherwise.  Right after a canonical
patch (same proviso as C2) it reports 0; it reports 1 whenever the
content differs from the substitution applied to that same content.
(The original claim compared against the substitution applied to the
*earlier* content, which is false: see
`check_target_stale_cex`.) -/
theorem check_target_mirrors_update :
    (∀ language generated source new changed,
      update_file language generated source = some (new, changed) →
      _check_target language generated source = some (if source = new then 0 else 1)) ∧
    (∀ language generated source,
      update_file language generated source = none →
      _check_target language generated source = none) ∧
    (∀ (language : String) (B E generated source : List Char) (b e : Nat),
      MARKERS language = some (B, E) →
      firstIdx B source = some b →
      firstIdx E source = some e →
      firstIdx E (source.take b ++ B ++ ['\n'] ++ generated ++ ['\n', '\n'] ++ E) =
        some (b + B.length + 1 + generated.length + 2) →
      _check_target language generated
        (source.take b ++ B ++ ['\n'] ++ generated ++ ['\n', '\n'] ++ E ++
          source.drop (e + E.length)) = some 0) ∧
    (∀ language generated source new changed,
      update_file language generated source = some (new, changed) → new ≠ source →
      _check_target language generated source = some 1) := by
  refine ⟨?_, ?_, ?_, ?_⟩
  · intro language generated source new changed h
    exact (check_target_of_update language generated source).1 new changed h
  · intro language generated source h
    exact (check_target_of_update language generated source).2 h
  · intro language B E generated source b e hm hb he hcanon
    obtain ⟨hB', hE', hrebuild⟩ :=
      canonical_rebuild B E generated source (source.drop (e + E.length)) b hb hcanon
    simp only [_check_target, hm, hB', hE']
    rw [hrebuild, if_pos rfl]
  · intro language generated source new changed h hne
    have := (check_target_of_update language generated source).1 new changed h
    rw [this, if_neg (fun hh => hne hh.symm)]

/-- Witness for C3: after patching `pyFile` the checker reports "up to
date" on the patched content, and reports drift on the stale original
content. -/
theorem check_target_mirrors_update_witness :
    _check_target "python" ['g'] pyFilePatched = some 0 ∧
    _check_target "python" ['g'] pyFile = some 1 := by
  have h3 := check_target_mirrors_update.2.2.1 "python" pyBegin pyEnd ['g'] pyFile 0 40
    rfl (by decide) (by decide) (by decide)
  have hX : pyFile.take 0 ++ pyBegin ++ ['\n'] ++ ['g'] ++ ['\n', '\n'] ++ pyEnd ++
      pyFile.drop (40 + pyEnd.length) = pyFilePatched := by decide
  rw [hX] at h3
  have h4 := check_target_mirrors_update.2.2.2 "python" ['g'] pyFile pyFilePatched true
    (by decide) (by decide)
  exact ⟨h3, h4⟩

/-- Counterexample for C3 as stated: after `update_file` produces
`pyFilePatched`, mutating the file (prepending one character before the
begin marker) yields content that differs from the substituted content,
yet `_check_target` still reports exit status 0. -/
theorem check_target_stale_cex :
    update_file "python" ['g'] pyFile = some (pyFilePatched, true) ∧
    _check_target "python" ['g'] pyFileMutated = some 0 ∧
    pyFileMutated ≠ pyFilePatched := by decide

/-- C4 (amended): `load_commands` drops exactly the entries whose key
does not contain a space (Python's `split(" ", 1)` yields fewer than
two parts only then) or whose metadata is not a record, and produces
one `CommandSpec` per surviving entry.  A key of three or more
space-separated tokens is NOT dropped: everything after the first space
becomes the qualifier token (see `three_token_key_kept_cex`). -/
theorem load_commands_entry_filtering :
    (∀ entries : List (String × JVal),
      ∃ specs, load_commands (.obj [("commands", .obj entries)]) = some specs ∧
        specs.length = (entries.filter entryKept).length) ∧
    (∀ metaFields : List (String × JVal),
      load_commands (.obj [("commands", .obj [("A B C", .obj metaFields)])]) =
        some [classify_command "A" "B C" metaFields]) := by
  constructor
  · intro entries
    refine ⟨_, rfl, ?_⟩
    rw [length_filterMap_eq_countP]
    simp only [entrySpec_isSome]
    rw [(List.perm_insertionSort (fun a b : String × JVal => a.1 ≤ b.1) entries).countP_eq,
      List.countP_eq_length_filter]
  · intro metaFields
    rfl

/-- Witness for C4: a singleton table whose key has three tokens
produces exactly one spec. -/
theorem load_commands_entry_filtering_witness :
    load_commands (JVal.obj [("commands", JVal.obj [("A B C", JVal.obj [])])]) =
      some [classify_command "A" "B C" []] :=
  load_commands_entry_filtering.2 []

/-- Counterexample for C4 as stated: the three-token key `"A B C"`
yields one `CommandSpec` (with qualifier token `"B C"`), not none. -/
theorem three_token_key_kept_cex :
    load_commands threeTokenDoc =
      some [{ verb := "A", mqsc_qualifier := "B C", qualifier := "b c",
              pattern := "optional_name", name_default := none }] ∧
    load_commands threeTokenDoc ≠ some [] := by decide

/-- C5 (amended): when the top-level document is a record, an absent or
non-record `"commands"` collection yields the empty spec list without
error; but a non-record top-level document makes `data.get` raise
`AttributeError` (modelled as `none`), not return the empty list (see
`load_commands_nondict_cex`). -/
theorem load_commands_top_level_behavior :
    (∀ fields, pyGet fields "commands" = none → load_commands (.obj fields) = some []) ∧
    (∀ fields v, pyGet fields "commands" = some v → (∀ entries, v ≠ .obj entries) →
      load_commands (.obj fields) = some []) ∧
    (∀ data : JVal, (∀ fields, data ≠ .obj fields) → load_commands data = none) := by
  refine ⟨?_, ?_, ?_⟩
  · intro fields h
    simp [load_commands, pyGetD, h]
  · intro fields v h hne
    cases v with
    | obj entries => exact absurd rfl (hne entries)
    | null => simp [load_commands, pyGetD, h]
    | bool b => simp [load_commands, pyGetD, h]
    | num n => simp [load_commands, pyGetD, h]
    | str s => simp [load_commands, pyGetD, h]
    | arr xs => simp [load_commands, pyGetD, h]
  · intro data h
    cases data with
    | obj fields => exact absurd rfl (h fields)
    | null => rfl
    | bool b => rfl
    | num n => rfl
    | str s => rfl
    | arr xs => rfl

/-- Witness for C5: an empty record, a record with a string-valued
commands field, and a non-record top level. -/
theorem load_commands_top_level_behavior_witness :
    load_commands (JVal.obj []) = some [] ∧
    load_commands (JVal.obj [("commands", JVal.str "x")]) = some [] ∧
    load_commands (JVal.arr []) = none :=
  ⟨load_commands_top_level_behavior.1 [] rfl,
   load_commands_top_level_behavior.2.1 [("commands", JVal.str "x")] (JVal.str "x") rfl
     (fun _ h => JVal.noConfusion h),
   load_commands_top_level_behavior.2.2 (JVal.arr []) (fun _ h => JVal.noConfusion h)⟩

/-- Counterexample for C5 as stated: on a non-record top-level document
`load_commands` raises (modelled `none`) instead of returning the empty
sequence. -/
theorem load_commands_nondict_cex :
    load_commands (JVal.arr []) = none ∧ load_commands (JVal.arr []) ≠ some [] := by
  exact ⟨rfl, by decide⟩

/-- C6 (amended): for each of the five languages `generate` returns the
blank-line-separated concatenation of the per-spec method renderings,
one per spec and in input order — for Java under the proviso that every
verb is non-empty, since `_java_method` indexes the verb's first
character (see `generate_java_empty_verb_cex`) — and every language
identifier outside the five-language set fails with the "Unsupported
language" error. -/
theorem generate_dispatch_structure :
    ∀ (specs : List CommandSpec) (mapping_pages : List String),
      (generate "python" specs mapping_pages =
          .ok (String.intercalate "\n\n" (specs.map (fun c => _python_method c mapping_pages))) ∧
        (specs.map (fun c => _python_method c mapping_pages)).length = specs.length) ∧
      (generate "ruby" specs mapping_pages =
          .ok (String.intercalate "\n\n" (specs.map _ruby_method)) ∧
        (specs.map _ruby_method).length = specs.length) ∧
      ((∀ c ∈ specs, c.verb ≠ "") →
        ∃ methods, mapOption _java_method specs = some methods ∧
          methods.length = specs.length ∧
          generate "java" specs mapping_pages = .ok (String.intercalate "\n\n" methods)) ∧
      (generate "go" specs mapping_pages =
          .ok (String.intercalate "\n\n" (specs.map _go_method)) ∧
        (specs.map _go_method).length = specs.length) ∧
      (generate "rust" specs mapping_pages =
          .ok (String.intercalate "\n\n" (specs.map _rust_method)) ∧
        (specs.map _rust_method).length = specs.length) ∧
      (∀ language, language ∉ LANGUAGES →
        generate language specs mapping_pages =
          .error (.valueError ("Unsupported language: " ++ language))) := by
  intro specs mapping_pages
  refine ⟨⟨rfl, by simp⟩, ⟨rfl, by simp⟩, ?_, ⟨rfl, by simp⟩, ⟨rfl, by simp⟩, ?_⟩
  · intro h
    obtain ⟨ms, hms, hlen⟩ := mapOption_java_of_nonempty specs h
    refine ⟨ms, hms, hlen, ?_⟩
    unfold generate generate_java
    rw [hms]
    rfl
  · intro language h
    simp only [LANGUAGES, List.mem_cons, List.not_mem_nil, or_false, not_or] at h
    obtain ⟨h1, h2, h3, h4, h5⟩ := h
    simp [generate, h1, h2, h3, h4, h5]

/-- Witness for C6: the unsupported-language error, and the Java branch
on a one-spec list with a non-empty verb. -/
theorem generate_dispatch_structure_witness :
    generate "fortran" [] [] = .error (.valueError ("Unsupported language: " ++ "fortran")) ∧
    generate "java" [alterQmgrSpec] [] =
      .ok (String.intercalate "\n\n" [(_java_method alterQmgrSpec).getD ""]) := by
  constructor
  · exact (generate_dispatch_structure [] []).2.2.2.2.2 "fortran" (by decide)
  · obtain ⟨ms, hms, hlen, hgen⟩ := (generate_dispatch_structure [alterQmgrSpec] []).2.2.1
      (by intro c hc; simp only [List.mem_singleton] at hc; subst hc; decide)
    have hconc : mapOption _java_method [alterQmgrSpec] =
        some [(_java_method alterQmgrSpec).getD ""] := rfl
    rw [hconc] at hms
    have hms' := Option.some.inj hms
    rw [← hms'] at hgen
    exact hgen

/-- Counterexample for C6 as stated: a `CommandSpec` with an empty verb
makes `generate "java"` raise `IndexError` instead of returning a
concatenation of method renderings. -/
theorem generate_java_empty_verb_cex :
    generate "java" [emptyVerbSpec] [] = .error .indexError := rfl

/-- C9: the Ruby, Java, Go and Rust outputs of `generate` are identical
for any two mapping-page sets; only the Python emitter reads the set,
and only through whether the command's qualifier is a member (which
toggles the cross-reference link line). -/
theorem mapping_pages_only_python :
    (∀ language, language ∈ (["ruby", "java", "go", "rust"] : List String) →
      ∀ (specs : List CommandSpec) (mp mp' : List String),
        generate language specs mp = generate language specs mp') ∧
    (∀ (cmd : CommandSpec) (mp mp' : List String),
      mp.contains cmd.qualifier = mp'.contains cmd.qualifier →
      _python_method cmd mp = _python_method cmd mp') := by
  constructor
  · intro language h specs mp mp'
    fin_cases h <;> rfl
  · intro cmd mp mp' h
    unfold _python_method _python_docstring
    rw [h]

/-- Witness for C9: Ruby output ignores the mapping pages; Python
output is unchanged when membership of the qualifier is unchanged. -/
theorem mapping_pages_only_python_witness :
    generate "ruby" [] [] = generate "ruby" [] ["queue"] ∧
    _python_method alterQmgrSpec ["qmgr"] = _python_method alterQmgrSpec ["qmgr", "extra"] :=
  ⟨mapping_pages_only_python.1 "ruby" (by decide) [] [] ["queue"],
   mapping_pages_only_python.2 alterQmgrSpec ["qmgr"] ["qmgr", "extra"] (by decide)⟩

/-- C10: the Java emitter is total on specs with a non-empty verb, and
raises (`none`) exactly on the empty verb, which `load_commands` can
produce from the key `" QUEUE"`. -/
theorem java_emission_totality :
    (∀ cmd : CommandSpec, cmd.verb ≠ "" → (_java_method cmd).isSome = true) ∧
    (∀ cmd : CommandSpec, cmd.verb = "" → _java_method cmd = none) ∧
    load_commands emptyVerbDoc = some [classify_command "" "QUEUE" []] := by
  refine ⟨java_method_some, ?_, rfl⟩
  intro cmd h
  unfold _java_method
  have hnil : cmd.verb.toList = [] := by rw [h]; rfl
  rw [hnil]

/-- Witness for C10: emission succeeds on `ALTER QMGR` and raises on
the spec loaded from the key `" QUEUE"`. -/
theorem java_emission_totality_witness :
    (_java_method alterQmgrSpec).isSome = true ∧
    _java_method (classify_command "" "QUEUE" []) = none :=
  ⟨java_emission_totality.1 alterQmgrSpec (by decide),
   java_emission_totality.2.1 (classify_command "" "QUEUE" []) (by decide)⟩

end GenerateCommands
